import Mathlib

/-
Verification development for the credential-generation core of the
sumatman-ai repository (src/src/tools/credential-generator.ts) and its
MCP tool layer (the unnamed tools module with validatePasswordSecurity /
validateBatchSecurity).

Modelling conventions:
* The cryptographically secure byte source (crypto.getRandomValues) is
  modelled as a function `ByteSrc : Nat -> Nat`; the i-th byte drawn by a
  computation is `rand i % 256` (Uint8Array entries are bytes).  Every
  generator threads an explicit position `pos` through the stream, so a
  whole computation is a deterministic function of the stream.
* JavaScript strings are modelled as `List Char` internally and wrapped
  into `String` for the `value` field of results.
* JavaScript `a || b` (falsy defaulting, where 0 and the empty string are
  falsy) is modelled by `jsOr` / `jsOrS`; `undefined` option fields are
  `Option.none`.
* Indexing `charset[b % charset.length]` on an EMPTY JavaScript string
  yields `undefined` (because `b % 0` is NaN).  When the result is
  appended to a string with `+=`, JavaScript stringifies it to the text
  "undefined"; when it is pushed into an array that is later joined with
  `join(St)`, the `undefined` entry contributes the empty string.  Both
  behaviours are modelled faithfully (`charAt` vs `drawOne`).
* The wall-clock ISO timestamp `generated_at` written into every
  metadata record is an I/O effect and is not modelled; `Date.now()`
  used by the ULID generator is passed in explicitly as a `timestamp`
  argument.
* `Math.floor(Math.log2(Math.pow(s, l)))` is modelled by the exact
  `Nat.log2 (s ^ l)`; floating-point edge cases (overflow to Infinity,
  log2 of 0) are not modelled, none of the verified claims depends on
  them.
-/

-- ===========================================================================
-- Basic JavaScript helpers
-- ===========================================================================

/-- JavaScript falsy-defaulting `x || d` on numbers: 0 is falsy. -/
def jsOr (o : Option Nat) (d : Nat) : Nat :=
  match o with
  | some n => if n = 0 then d else n
  | none => d

/-- JavaScript falsy-defaulting `x || d` on strings: the empty string is falsy. -/
def jsOrS (o : Option String) (d : String) : String :=
  match o with
  | some s => if s = "" then d else s
  | none => d

/-- JavaScript `toLowerCase` restricted to the ASCII range used here. -/
def jsToLower (s : String) : String := String.mk (s.toList.map Char.toLower)

-- ===========================================================================
-- Secure byte source (crypto.getRandomValues on a Uint8Array)
-- ===========================================================================

/-- A stream of random draws; the byte at position i is `rand i % 256`. -/
def ByteSrc : Type := Nat → Nat

/-- getSecureRandomBytes(length): the next `n` bytes of the stream from
position `pos`.  Every entry is reduced mod 256 (Uint8Array semantics). -/
def getSecureRandomBytes (n : Nat) (rand : ByteSrc) (pos : Nat) : List Nat :=
  (List.range n).map (fun i => rand (pos + i) % 256)

-- ===========================================================================
-- Character sets (the CHARSETS constant of the source)
-- ===========================================================================

namespace CHARSETS

def uppercase : List Char := "ABCDEFGHIJKLMNOPQRSTUVWXYZ".toList

def lowercase : List Char := "abcdefghijklmnopqrstuvwxyz".toList

def numbers : List Char := "0123456789".toList

def special : List Char := "!@#$%^&*()_+-=[]{}|;:,.<>?".toList

def special_safe : List Char := "!@#$%^&*_+-=".toList

def hex : List Char := "0123456789ABCDEF".toList

def hex_lower : List Char := "0123456789abcdef".toList

def alphanumeric : List Char :=
  "ABCDEFGHIJKLMNOPQRSTUVWXYZabcdefghijklmnopqrstuvwxyz0123456789".toList

def url_safe : List Char :=
  "ABCDEFGHIJKLMNOPQRSTUVWXYZabcdefghijklmnopqrstuvwxyz0123456789-_".toList

def ambiguous : List Char := "il1Lo0O".toList

def base58 : List Char :=
  "123456789ABCDEFGHJKLMNPQRSTUVWXYZabcdefghijkmnopqrstuvwxyz".toList

end CHARSETS

-- ===========================================================================
-- Encoding transforms
-- ===========================================================================

/-- A single lowercase hexadecimal digit. -/
def hexDig (n : Nat) : Char := CHARSETS.hex_lower.getD n '0'

/-- bytesToHex: each byte b (< 256) becomes the two lowercase hex digits
b.toString(16).padStart(2, the zero character). -/
def bytesToHex (bs : List Nat) : List Char :=
  bs.flatMap (fun b => [hexDig (b / 16), hexDig (b % 16)])

def b64Alphabet : List Char :=
  "ABCDEFGHIJKLMNOPQRSTUVWXYZabcdefghijklmnopqrstuvwxyz0123456789+/".toList

def b64Dig (n : Nat) : Char := b64Alphabet.getD n 'A'

/-- bytesToBase64: btoa of the raw byte string, standard alphabet with
padding. -/
def bytesToBase64 : List Nat → List Char
  | [] => []
  | [a] => [b64Dig (a / 4), b64Dig (a % 4 * 16), '=', '=']
  | [a, b] => [b64Dig (a / 4), b64Dig (a % 4 * 16 + b / 16), b64Dig (b % 16 * 4), '=']
  | a :: b :: c :: rest =>
      b64Dig (a / 4) :: b64Dig (a % 4 * 16 + b / 16) ::
      b64Dig (b % 16 * 4 + c / 64) :: b64Dig (c % 64) :: bytesToBase64 rest

/-- bytesToBase64Url: base64 with plus and slash replaced and padding
stripped. -/
def bytesToBase64Url (bs : List Nat) : List Char :=
  (bytesToBase64 bs).filterMap (fun c =>
    if c = '+' then some '-'
    else if c = '/' then some '_'
    else if c = '=' then none
    else some c)

-- ===========================================================================
-- Case transform, affixes, entropy
-- ===========================================================================

inductive CaseTransform where
  | upper
  | lower
  | mixed
deriving DecidableEq

/-- applyCase: upper / lower / mixed (identity). -/
def applyCase (cs : List Char) (c : CaseTransform) : List Char :=
  match c with
  | .upper => cs.map Char.toUpper
  | .lower => cs.map Char.toLower
  | .mixed => cs

/-- addAffixes: literal concatenation of optional prefix-string and suffix. -/
def addAffixes (cs : List Char) (p s : Option String) : List Char :=
  (p.getD "").toList ++ cs ++ (s.getD "").toList

/-- calculateEntropy: floor(log2(charsetSize ^ length)), the idealized
value of the floating-point computation in the source. -/
def calculateEntropy (charsetSize len : Nat) : Nat :=
  Nat.log2 (charsetSize ^ len)

/-- The charset display string stored in metadata: first 20 characters,
with a trailing ellipsis when truncated. -/
def charsetDisplay (cs : List Char) : String :=
  if cs.length > 20 then String.mk (cs.take 20) ++ "..." else String.mk cs

-- ===========================================================================
-- Data model: GenerationResult
-- ===========================================================================

/-- The metadata record of a GenerationResult.  Generator-specific fields
are optional.  `generated_at` (wall-clock) is not modelled.  The batch
generator stores the non-numeric string varies-by-type in entropy_bits;
that is modelled as `none`. -/
structure Metadata where
  type : String
  length : Nat
  algorithm : Option String := none
  entropy_bits : Option Nat := none
  charset : Option String := none
  security_level : Option String := none
  byte_size : Option Nat := none
  word_count : Option Nat := none
  separator : Option String := none
  format : Option String := none
  total_items : Option Nat := none
  types_generated : Option (List String) := none
deriving DecidableEq

structure GenerationResult where
  value : String
  name : String
  description : String
  metadata : Metadata
deriving DecidableEq

-- ===========================================================================
-- Charset indexing (JavaScript semantics)
-- ===========================================================================

/-- charset[b % charset.length] as an optional character: `none` models the
JavaScript `undefined` produced when the charset is empty (b % 0 is NaN). -/
def drawOne (chars : List Char) (b : Nat) : Option Char :=
  if h : 0 < chars.length then some (chars.get ⟨b % chars.length, Nat.mod_lt _ h⟩)
  else none

/-- result += charset[b % charset.length]: appending `undefined` to a
string stringifies it to the nine characters of the word undefined. -/
def charAt (chars : List Char) (b : Nat) : List Char :=
  match drawOne chars b with
  | some c => [c]
  | none => "undefined".toList

-- ===========================================================================
-- UUID v4
-- ===========================================================================

/-- The 16 random bytes of a UUID v4 with the version nibble of byte 6
forced to 4 and the variant bits of byte 8 forced to 10. -/
def uuidBytes (rand : ByteSrc) (pos : Nat) : List Nat :=
  let bytes := getSecureRandomBytes 16 rand pos
  let bytes := bytes.set 6 (((bytes.getD 6 0) &&& 0x0f) ||| 0x40)
  bytes.set 8 (((bytes.getD 8 0) &&& 0x3f) ||| 0x80)

/-- The 36 characters of a generated UUID v4: the adjusted bytes
hex-encoded and grouped 8-4-4-4-12. -/
def uuid4Chars (rand : ByteSrc) (pos : Nat) : List Char :=
  let hex := bytesToHex (uuidBytes rand pos)
  hex.take 8 ++ ['-'] ++ (hex.drop 8).take 4 ++ ['-'] ++ (hex.drop 12).take 4
    ++ ['-'] ++ (hex.drop 16).take 4 ++ ['-'] ++ (hex.drop 20).take 12

def generateUuid4 (rand : ByteSrc) (pos : Nat) : GenerationResult × Nat :=
  ({ value := String.mk (uuid4Chars rand pos)
     name := "uuid4"
     description := "Generated UUID4 for unique identification"
     metadata :=
       { type := "uuid4"
         length := 36
         algorithm := some "secure_random"
         entropy_bits := some 122
         charset := some "hex-with-dashes"
         security_level := some "high" } }, pos + 16)

-- ===========================================================================
-- ULID
-- ===========================================================================

/-- Crockford base32 alphabet used by the ULID generator. -/
def ulidBase32 : List Char := "0123456789ABCDEFGHJKMNPQRSTVWXYZ".toList

def b32Dig (n : Nat) : Char := ulidBase32.getD n '0'

/-- The timestamp-encoding loop: prepend base32[temp % 32] and divide,
`i` times. -/
def encodeTimeGo : Nat → Nat → List Char → List Char
  | 0, _, acc => acc
  | i + 1, temp, acc => encodeTimeGo i (temp / 32) (b32Dig (temp % 32) :: acc)

/-- The 10 leading characters of a ULID: the millisecond timestamp in
big-endian Crockford base32. -/
def encodeTime (timestamp : Nat) : List Char := encodeTimeGo 10 timestamp []

/-- The 16 trailing characters of a ULID.  Character i is
base32[randomBytes[floor(i * 10 / 16)] % 32]; several of the 10 random
bytes are consulted twice, and only the low 5 bits of each are used. -/
def ulidRandomPart (randomBytes : List Nat) : List Char :=
  (List.range 16).map (fun i => b32Dig ((randomBytes.getD (i * 10 / 16) 0) % 32))

def ulidChars (timestamp : Nat) (rand : ByteSrc) (pos : Nat) : List Char :=
  encodeTime timestamp ++ ulidRandomPart (getSecureRandomBytes 10 rand pos)

def generateUlid (timestamp : Nat) (rand : ByteSrc) (pos : Nat) : GenerationResult × Nat :=
  ({ value := String.mk (ulidChars timestamp rand pos)
     name := "ulid"
     description := "Generated ULID for time-sortable unique identification"
     metadata :=
       { type := "ulid"
         length := 26
         algorithm := some "timestamp+secure_random"
         entropy_bits := some 80
         charset := some "crockford_base32"
         security_level := some "high" } }, pos + 10)

-- ===========================================================================
-- Nano ID
-- ===========================================================================

def generateNanoId (len : Nat) (rand : ByteSrc) (pos : Nat) : GenerationResult × Nat :=
  let chars := (getSecureRandomBytes len rand pos).flatMap (charAt CHARSETS.url_safe)
  ({ value := String.mk chars
     name := "nano_id"
     description := "Generated Nano ID for URL-safe unique identification"
     metadata :=
       { type := "nano_id"
         length := len
         algorithm := some "secure_random"
         entropy_bits := some (calculateEntropy CHARSETS.url_safe.length len)
         charset := some "url_safe"
         security_level := some "high" } }, pos + len)

-- ===========================================================================
-- Option records
-- ===========================================================================

/-- A unified model of the structurally-typed TypeScript option records
(StringOptions, PasswordOptions, and the untyped per-request options of
generateBatch).  A `none` field models an absent / undefined property.
The source field `prefix` is modelled as `prefixOpt` and `case` as
`caseOpt` (both source names are unavailable as Lean field names). -/
structure GenOptions where
  include_uppercase : Option Bool := none
  include_lowercase : Option Bool := none
  include_numbers : Option Bool := none
  include_special_chars : Option Bool := none
  exclude_ambiguous : Option Bool := none
  exclude_chars : Option String := none
  custom_charset : Option String := none
  min_uppercase : Option Nat := none
  min_lowercase : Option Nat := none
  min_numbers : Option Nat := none
  min_special : Option Nat := none
  special_char_set : Option String := none
  strength : Option String := none
  caseOpt : Option CaseTransform := none
  prefixOpt : Option String := none
  suffix : Option String := none
  length : Option Nat := none
  words : Option Nat := none
  separator : Option String := none
  format : Option String := none
deriving DecidableEq

-- ===========================================================================
-- Generic random string
-- ===========================================================================

/-- The charset assembled from the enabled classes when no (truthy) custom
charset is supplied: a class is included unless its flag is literally
false; special characters only when the flag is literally true. -/
def rsClassCharset (opts : GenOptions) : List Char :=
  (if opts.include_uppercase ≠ some false then CHARSETS.uppercase else [])
    ++ (if opts.include_lowercase ≠ some false then CHARSETS.lowercase else [])
    ++ (if opts.include_numbers ≠ some false then CHARSETS.numbers else [])
    ++ (if opts.include_special_chars = some true then
          (jsOrS opts.special_char_set (String.mk CHARSETS.special_safe)).toList
        else [])

/-- The final sampling charset of generateRandomString: custom charset
when truthy, otherwise the class union; alphanumeric fallback when the
result is the empty string; then the excluded characters are removed.
The fallback runs BEFORE the exclusions, so exclusions can empty it. -/
def rsCharset (opts : GenOptions) : List Char :=
  let base :=
    match opts.custom_charset with
    | some s => if s = "" then rsClassCharset opts else s.toList
    | none => rsClassCharset opts
  let base := if base = [] then CHARSETS.alphanumeric else base
  match opts.exclude_chars with
  | some ex => if ex = "" then base else base.filter (fun c => !(ex.toList.contains c))
  | none => base

def generateRandomString (len : Nat) (opts : GenOptions) (rand : ByteSrc) (pos : Nat) :
    GenerationResult × Nat :=
  let charset := rsCharset opts
  let raw := (getSecureRandomBytes len rand pos).flatMap (charAt charset)
  let final := addAffixes (applyCase raw (opts.caseOpt.getD .mixed)) opts.prefixOpt opts.suffix
  ({ value := String.mk final
     name := "random_string"
     description := "Generated random string with custom character set"
     metadata :=
       { type := "random_string"
         length := final.length
         algorithm := some "secure_random"
         entropy_bits := some (calculateEntropy charset.length len)
         charset := some (charsetDisplay charset)
         security_level :=
           some (if 64 ≤ calculateEntropy charset.length len then "high" else "medium") } },
   pos + len)

-- ===========================================================================
-- Hex string
-- ===========================================================================

def generateHexString (len : Nat) (rand : ByteSrc) (pos : Nat) : GenerationResult × Nat :=
  let byteLen := (len + 1) / 2
  let hexChars := (bytesToHex (getSecureRandomBytes byteLen rand pos)).take len
  ({ value := String.mk hexChars
     name := "hex_string"
     description := "Generated hexadecimal string"
     metadata :=
       { type := "hex_string"
         length := len
         algorithm := some "secure_random"
         entropy_bits := some (len * 4)
         charset := some "hexadecimal"
         security_level := some (if 32 ≤ len then "high" else "medium") } },
   pos + byteLen)

-- ===========================================================================
-- API key (used by the batch api_key branch)
-- ===========================================================================

def generateApiKey (format : String) (len : Nat) (rand : ByteSrc) (pos : Nat) :
    GenerationResult × Nat :=
  let byteLen := (len * 3 + 3) / 4
  let bytes := getSecureRandomBytes byteLen rand pos
  let chars :=
    if format = "base64" then (bytesToBase64 bytes).take len
    else if format = "base64url" then (bytesToBase64Url bytes).take len
    else (bytesToHex bytes).take len
  ({ value := String.mk chars
     name := "api_key_" ++ format ++ toString len
     description := "Generated API key in " ++ format ++ " format"
     metadata :=
       { type := "api_key"
         format := some format
         length := len
         algorithm := some "secure_random"
         entropy_bits := some (calculateEntropy (if format = "hex" then 16 else 64) len)
         charset := some format
         security_level := some (if 32 ≤ len then "high" else "medium") } },
   pos + byteLen)

-- ===========================================================================
-- Password generator
-- ===========================================================================

/-- One entry of the `sets` array of generatePassword: a class charset
together with its minimum count. -/
structure ClassSet where
  chars : List Char
  min : Nat
deriving DecidableEq

/-- The enabled class sets, in source order (uppercase, lowercase,
numbers, special), with ambiguous characters removed when requested. -/
def classSets (opts : GenOptions) : List ClassSet :=
  (if opts.include_uppercase.getD true then
     [{ chars :=
          if opts.exclude_ambiguous.getD false then
            CHARSETS.uppercase.filter (fun c => !(c == 'I' || c == 'L'))
          else CHARSETS.uppercase
        min := opts.min_uppercase.getD 1 }]
   else [])
  ++ (if opts.include_lowercase.getD true then
        [{ chars :=
             if opts.exclude_ambiguous.getD false then
               CHARSETS.lowercase.filter (fun c => !(c == 'i' || c == 'l'))
             else CHARSETS.lowercase
           min := opts.min_lowercase.getD 1 }]
      else [])
  ++ (if opts.include_numbers.getD true then
        [{ chars :=
             if opts.exclude_ambiguous.getD false then
               CHARSETS.numbers.filter (fun c => !(c == '0' || c == '1'))
             else CHARSETS.numbers
           min := opts.min_numbers.getD 1 }]
      else [])
  ++ (if opts.include_special_chars.getD true then
        [{ chars := (opts.special_char_set.getD (String.mk CHARSETS.special_safe)).toList
           min := opts.min_special.getD 1 }]
      else [])

/-- The union charset of the enabled classes (the `charset` accumulator). -/
def passwordCharset (opts : GenOptions) : List Char :=
  (classSets opts).flatMap (fun s => s.chars)

/-- The first phase of generatePassword: for each class set in order, draw
exactly `min` characters from its charset (one fresh byte per draw).
A draw from an empty charset is the JavaScript `undefined`, i.e. `none`. -/
def drawMins (sets : List ClassSet) (rand : ByteSrc) (pos : Nat) :
    List (Option Char) × Nat :=
  match sets with
  | [] => ([], pos)
  | s :: rest =>
      let here := (List.range s.min).map (fun k => drawOne s.chars (rand (pos + k) % 256))
      let tail := drawMins rest rand (pos + s.min)
      (here ++ tail.1, tail.2)

/-- The filler phase: `n` draws from the union charset. -/
def drawFill (chars : List Char) (n : Nat) (rand : ByteSrc) (pos : Nat) :
    List (Option Char) :=
  (List.range n).map (fun k => drawOne chars (rand (pos + k) % 256))

/-- The assembled pre-shuffle character array of generatePassword: the
minimum-class draws followed by `length - Σ minimums` filler draws (no
filler when the minimums already exceed the length, matching the
non-executing JavaScript loop on a negative bound). -/
def passwordPool (len : Nat) (opts : GenOptions) (rand : ByteSrc) (pos : Nat) :
    List (Option Char) × Nat :=
  let mins := drawMins (classSets opts) rand pos
  let remaining := len - mins.1.length
  (mins.1 ++ drawFill (passwordCharset opts) remaining rand mins.2, mins.2 + remaining)

/-- Swap the entries at positions i and j (identity when either index is
out of range, which never happens in the shuffle below). -/
def swapL (l : List α) (i j : Nat) : List α :=
  match l[i]?, l[j]? with
  | some a, some b => (l.set i b).set j a
  | _, _ => l

/-- The Fisher-Yates loop: for i from n-1 down to 1, draw a byte and swap
position i with position byte % (i+1).  The first argument is i. -/
def fyAux (rand : ByteSrc) : Nat → Nat → List α → List α × Nat
  | 0, pos, l => (l, pos)
  | i + 1, pos, l => fyAux rand i (pos + 1) (swapL l (i + 1) (rand pos % 256 % (i + 2)))

def fyShuffle (l : List α) (rand : ByteSrc) (pos : Nat) : List α × Nat :=
  fyAux rand (l.length - 1) pos l

/-- generatePassword: minimum-class draws, filler draws, Fisher-Yates
shuffle, then join with the empty separator (JavaScript join skips
`undefined` array entries, hence the filterMap).  The metadata `length`
is the REQUESTED length, not the length of the produced value. -/
def generatePassword (len : Nat) (opts : GenOptions) (rand : ByteSrc) (pos : Nat) :
    GenerationResult × Nat :=
  let charset := passwordCharset opts
  let pool := passwordPool len opts rand pos
  let shuffled := fyShuffle pool.1 rand pool.2
  let strength := opts.strength.getD "high"
  ({ value := String.mk (shuffled.1.filterMap id)
     name := "secure_password"
     description := "Generated secure password with customizable requirements"
     metadata :=
       { type := "secure_password"
         length := len
         algorithm := some "secure_random_with_requirements"
         entropy_bits := some (calculateEntropy charset.length len)
         charset := some (charsetDisplay charset)
         security_level :=
           some (if strength = "maximum" then "high"
                 else if strength = "high" then "medium" else "low") } },
   shuffled.2)

-- ===========================================================================
-- PIN
-- ===========================================================================

def generatePin (len : Nat) (rand : ByteSrc) (pos : Nat) : GenerationResult × Nat :=
  let chars := (getSecureRandomBytes len rand pos).flatMap (charAt CHARSETS.numbers)
  ({ value := String.mk chars
     name := "pin"
     description := "Generated " ++ toString len ++ "-digit PIN code for authentication"
     metadata :=
       { type := "pin"
         length := len
         algorithm := some "secure_random"
         entropy_bits := some (calculateEntropy CHARSETS.numbers.length len)
         charset := some "numeric"
         security_level := some (if 6 ≤ len then "medium" else "low") } },
   pos + len)

-- ===========================================================================
-- Passphrase
-- ===========================================================================

/-- The fixed 200-entry dictionary of generatePassphrase. -/
def wordList : List String :=
  ["able", "acid", "aged", "also", "area", "army", "away", "baby", "back", "ball",
   "band", "bank", "base", "bath", "bear", "beat", "been", "bell", "belt", "best",
   "bird", "blow", "blue", "boat", "body", "bomb", "bond", "bone", "book", "boom",
   "born", "boss", "both", "bowl", "bulk", "burn", "bush", "busy", "call", "calm",
   "came", "camp", "card", "care", "case", "cash", "cast", "cell", "chat", "chip",
   "city", "club", "coal", "coat", "code", "cold", "come", "cook", "cool", "copy",
   "core", "corn", "cost", "crew", "crop", "dark", "data", "date", "dawn", "days",
   "dead", "deal", "dean", "dear", "debt", "deck", "deep", "deer", "desk", "dial",
   "died", "diet", "disk", "done", "door", "dose", "down", "draw", "drew", "drop",
   "drug", "dual", "duck", "duke", "dust", "duty", "each", "earn", "east", "easy",
   "edge", "else", "even", "ever", "evil", "exit", "face", "fact", "fail", "fair",
   "fall", "farm", "fast", "fate", "fear", "feed", "feel", "feet", "fell", "felt",
   "file", "fill", "film", "find", "fine", "fire", "firm", "fish", "five", "flag",
   "flat", "flow", "folk", "food", "foot", "ford", "form", "fort", "four", "free",
   "from", "fuel", "full", "fund", "gain", "game", "gate", "gave", "gear", "gift",
   "girl", "give", "glad", "goal", "goes", "gold", "golf", "gone", "good", "gray",
   "grew", "grid", "grow", "hair", "half", "hall", "hand", "hang", "hard", "harm",
   "hate", "have", "head", "hear", "heat", "held", "hell", "help", "here", "hero",
   "hide", "high", "hill", "hire", "hold", "hole", "holy", "home", "hope", "host",
   "hour", "huge", "hung", "hunt", "hurt", "idea", "inch", "into", "iron", "item"]

def generatePassphrase (words : Nat) (separator : String) (rand : ByteSrc) (pos : Nat) :
    GenerationResult × Nat :=
  let selected := (List.range words).map (fun i =>
    let b0 := rand (pos + 2 * i) % 256
    let b1 := rand (pos + 2 * i + 1) % 256
    wordList.getD (((b0 <<< 8) ||| b1) % wordList.length) "")
  let value := String.intercalate separator selected
  let entropyBits := calculateEntropy wordList.length words
  ({ value := value
     name := "passphrase"
     description := "Generated " ++ toString words ++ "-word passphrase using dictionary words"
     metadata :=
       { type := "passphrase"
         length := value.length
         word_count := some words
         separator := some separator
         algorithm := some "dictionary_words"
         entropy_bits := some entropyBits
         security_level :=
           some (if 50 ≤ entropyBits then "high"
                 else if 30 ≤ entropyBits then "medium" else "low") } },
   pos + 2 * words)

-- ===========================================================================
-- IV and encryption key (algorithm-aware sizing tables)
-- ===========================================================================

/-- JavaScript object-key lookup on a fixed string-keyed record. -/
def tableGet : List (String × Nat) → String → Option Nat
  | [], _ => none
  | (k, v) :: rest, a => if k = a then some v else tableGet rest a

def ivSizes : List (String × Nat) :=
  [("aes128", 16), ("aes192", 16), ("aes256", 16),
   ("des", 8), ("blowfish", 8), ("chacha20", 12)]

def generateIv (algorithm : String) (rand : ByteSrc) (pos : Nat) : GenerationResult × Nat :=
  let size := jsOr (tableGet ivSizes (jsToLower algorithm)) 16
  let value := String.mk (bytesToHex (getSecureRandomBytes size rand pos))
  ({ value := value
     name := "initialization_vector"
     description := "Generated initialization vector for " ++ algorithm ++ " encryption"
     metadata :=
       { type := "initialization_vector"
         length := value.length
         algorithm := some algorithm
         byte_size := some size
         entropy_bits := some (size * 8)
         charset := some "hex"
         security_level := some "high" } },
   pos + size)

def keySizes : List (String × Nat) :=
  [("aes128", 16), ("aes192", 24), ("aes256", 32),
   ("des", 8), ("blowfish", 16), ("chacha20", 32)]

def generateEncryptionKey (algorithm : String) (rand : ByteSrc) (pos : Nat) :
    GenerationResult × Nat :=
  let size := jsOr (tableGet keySizes (jsToLower algorithm)) 32
  let value := String.mk (bytesToBase64 (getSecureRandomBytes size rand pos))
  ({ value := value
     name := "encryption_key"
     description := "Generated encryption key for " ++ algorithm
     metadata :=
       { type := "encryption_key"
         length := value.length
         algorithm := some algorithm
         byte_size := some size
         entropy_bits := some (size * 8)
         charset := some "hex"
         security_level := some "high" } },
   pos + size)

/-- Whether an IV request for this algorithm name uses the fallback
default size instead of a per-cipher table entry.  This is a function of
the algorithm name, which generateIv copies verbatim into the result
metadata, so the fallback is decidable from the metadata alone. -/
def ivFallbackUsed (algorithm : String) : Bool :=
  (tableGet ivSizes (jsToLower algorithm)).isNone

-- ===========================================================================
-- Batch generation
-- ===========================================================================

structure BatchRequest where
  type : String
  count : Nat
  options : GenOptions := {}
deriving DecidableEq

/-- requests.reduce((sum, req) => sum + req.count, 0). -/
def sumCounts (reqs : List BatchRequest) : Nat :=
  reqs.foldl (fun s r => s + r.count) 0

/-- One dispatch of the switch statement inside the generateBatch loop.
The `token` and `secret` branches call functions (generateToken,
generateSecret) that are not defined anywhere in the repository, so at
runtime they throw a ReferenceError; they are modelled as errors.  An
unknown type throws the enumerating error of the default branch. -/
def genOne (ty : String) (options : GenOptions) (nowMs : Nat) (rand : ByteSrc)
    (pos : Nat) : Except String (GenerationResult × Nat) :=
  if ty = "uuid4" then .ok (generateUuid4 rand pos)
  else if ty = "ulid" then .ok (generateUlid nowMs rand pos)
  else if ty = "nano_id" then .ok (generateNanoId (options.length.getD 21) rand pos)
  else if ty = "password" then .ok (generatePassword (jsOr options.length 16) options rand pos)
  else if ty = "pin" then .ok (generatePin (jsOr options.length 6) rand pos)
  else if ty = "passphrase" then
    .ok (generatePassphrase (jsOr options.words 6) (jsOrS options.separator "-") rand pos)
  else if ty = "api_key" then
    .ok (generateApiKey (jsOrS options.format "hex") (jsOr options.length 32) rand pos)
  else if ty = "token" then .error "ReferenceError: generateToken is not defined"
  else if ty = "random_string" then
    .ok (generateRandomString (jsOr options.length 32) options rand pos)
  else if ty = "secret" then .error "ReferenceError: generateSecret is not defined"
  else .error ("Unknown credential type: " ++ ty)

/-- The inner `for i in 0..count` loop of generateBatch: `count` results
of the given type, generated sequentially. -/
def genN (ty : String) (options : GenOptions) (nowMs : Nat) (rand : ByteSrc) :
    Nat → Nat → Except String (List GenerationResult × Nat)
  | 0, pos => .ok ([], pos)
  | c + 1, pos =>
      match genOne ty options nowMs rand pos with
      | .error e => .error e
      | .ok (r, pos') =>
          match genN ty options nowMs rand c pos' with
          | .error e => .error e
          | .ok (rs, pend) => .ok (r :: rs, pend)

/-- JavaScript object property write `results[type] = v`: replaces the
binding in place when the key exists, appends otherwise. -/
def setKey (m : List (String × α)) (k : String) (v : α) : List (String × α) :=
  match m with
  | [] => [(k, v)]
  | (k', v') :: rest => if k' = k then (k', v) :: rest else (k', v') :: setKey rest k v

/-- JavaScript object property read. -/
def lookupKey (m : List (String × α)) (k : String) : Option α :=
  match m with
  | [] => none
  | (k', v) :: rest => if k' = k then some v else lookupKey rest k

/-- The outer loop of generateBatch: for each request, the accumulator
entry for its type is RESET to the freshly generated list (discarding any
results from an earlier request of the same type). -/
def runBatch (reqs : List BatchRequest) (nowMs : Nat) (rand : ByteSrc) (pos : Nat)
    (acc : List (String × List GenerationResult)) :
    Except String (List (String × List GenerationResult) × Nat) :=
  match reqs with
  | [] => .ok (acc, pos)
  | r :: rest =>
      match genN r.type r.options nowMs rand r.count pos with
      | .error e => .error e
      | .ok (items, pos') => runBatch rest nowMs rand pos' (setKey acc r.type items)

/-- The aggregate produced by generateBatch.  The source serializes the
mapping to JSON for the `value` string and stores the length of the
compact serialization in metadata; that serialization is not modelled,
the mapping itself is returned (and metadata `length` is left 0). -/
structure BatchResult where
  results : List (String × List GenerationResult)
  metadata : Metadata
deriving DecidableEq

def generateBatch (reqs : List BatchRequest) (nowMs : Nat) (rand : ByteSrc) (pos : Nat) :
    Except String (BatchResult × Nat) :=
  match runBatch reqs nowMs rand pos [] with
  | .error e => .error e
  | .ok (m, pend) =>
      .ok ({ results := m
             metadata :=
               { type := "batch"
                 length := 0
                 algorithm := some "batch_secure_random"
                 total_items := some (sumCounts reqs)
                 types_generated := some (m.map (fun kv => kv.1))
                 charset := some "mixed"
                 security_level := some "high" } }, pend)

-- ===========================================================================
-- MCP tool layer: batch validation
-- ===========================================================================

def resourceLimitTotalMsg : String :=
  "Total batch items cannot exceed 100 for resource protection"

def resourceLimitItemMsg : String :=
  "Individual request count cannot exceed 20 for resource protection"

/-- validateBatchSecurity: total item cap of 100 and per-request cap of
20; returns (valid, errors). -/
def validateBatchSecurity (reqs : List BatchRequest) : Bool × List String :=
  let errors :=
    (if 100 < sumCounts reqs then [resourceLimitTotalMsg] else [])
      ++ (if 0 < (reqs.filter (fun r => decide (20 < r.count))).length
          then [resourceLimitItemMsg] else [])
  (errors.isEmpty, errors)

inductive BatchToolOutcome where
  | validationError (errors : List String)
  | generationError (msg : String)
  | success (res : BatchResult)

/-- The generateBatch MCP tool handler: validateBatchSecurity runs first
and, when it fails, the handler returns the error response without ever
calling generateBatch (so no random bytes are drawn and nothing is
generated). -/
def generateBatchTool (reqs : List BatchRequest) (nowMs : Nat) (rand : ByteSrc) :
    BatchToolOutcome :=
  let v := validateBatchSecurity reqs
  if v.1 then
    match generateBatch reqs nowMs rand 0 with
    | .ok (out, _) => .success out
    | .error e => .generationError e
  else .validationError v.2

-- ===========================================================================
-- MCP tool layer: password validation
-- ===========================================================================

/-- The zod-validated input of the generatePassword MCP tool, with the
schema defaults already applied (which is how the handler receives it). -/
structure PasswordToolInput where
  length : Nat := 16
  include_uppercase : Bool := true
  include_lowercase : Bool := true
  include_numbers : Bool := true
  include_special_chars : Bool := true
  exclude_ambiguous : Bool := false
  min_uppercase : Nat := 1
  min_lowercase : Nat := 1
  min_numbers : Nat := 1
  min_special : Nat := 1
  special_char_set : Option String := none
  strength : String := "high"
deriving DecidableEq

def minSumMsg : String :=
  "Sum of minimum character requirements exceeds password length"

def twoTypesMsg : String :=
  "Password must include at least 2 character types for security"

/-- validatePasswordSecurity: the sum of the minimum counts must not
exceed the length, and at least two character classes must be enabled.
The custom_charset check of the source never fires for this tool because
the password schema has no custom_charset field (always undefined). -/
def validatePasswordSecurity (inp : PasswordToolInput) : Bool × List String :=
  let errors :=
    (if inp.length <
          inp.min_uppercase + inp.min_lowercase + inp.min_numbers + inp.min_special
     then [minSumMsg] else [])
      ++ (if ([inp.include_uppercase, inp.include_lowercase, inp.include_numbers,
               inp.include_special_chars].filter id).length < 2
          then [twoTypesMsg] else [])
  (errors.isEmpty, errors)

/-- The options record the tool handler passes to the core generator. -/
def toGenOptions (inp : PasswordToolInput) : GenOptions :=
  { include_uppercase := some inp.include_uppercase
    include_lowercase := some inp.include_lowercase
    include_numbers := some inp.include_numbers
    include_special_chars := some inp.include_special_chars
    exclude_ambiguous := some inp.exclude_ambiguous
    min_uppercase := some inp.min_uppercase
    min_lowercase := some inp.min_lowercase
    min_numbers := some inp.min_numbers
    min_special := some inp.min_special
    special_char_set := inp.special_char_set
    strength := some inp.strength }

/-- The generatePassword MCP tool handler: validatePasswordSecurity runs
first and, when it fails, the handler returns the error response without
calling the core generator. -/
def generatePasswordTool (inp : PasswordToolInput) (rand : ByteSrc) (pos : Nat) :
    Except (List String) GenerationResult :=
  let v := validatePasswordSecurity inp
  if v.1 then .ok (generatePassword inp.length (toGenOptions inp) rand pos).1
  else .error v.2

-- ===========================================================================
-- Concrete inputs used by counterexamples and witnesses
-- ===========================================================================

/-- The all-zero byte stream. -/
def zeroSrc : ByteSrc := fun _ => 0

/-- A byte stream differing from the all-zero one only in bit 5 of its
first byte (the two streams agree modulo 32 everywhere). -/
def bit5Src : ByteSrc := fun i => if i = 0 then 32 else 0

/-- Options whose minimum counts (2+2+2 plus the default min_special of
1) sum to 7, beyond a requested length of 4. -/
def cexPasswordOpts : GenOptions :=
  { min_uppercase := some 2, min_lowercase := some 2, min_numbers := some 2 }

/-- Options whose minimum counts (3+2+2 plus the default min_special of
1) sum to 8, beyond a requested length of 4. -/
def cexLengthOpts : GenOptions :=
  { min_uppercase := some 3, min_lowercase := some 2, min_numbers := some 2 }

/-- String options whose exclusions remove every character of the custom
charset. -/
def cexEmptyCharsetOpts : GenOptions :=
  { custom_charset := some "ABC", exclude_chars := some "ABC" }

/-- Password options disabling every character class: the sum of
enabled-class minimums is 0. -/
def cexNoClassOpts : GenOptions :=
  { include_uppercase := some false, include_lowercase := some false
    include_numbers := some false, include_special_chars := some false }

/-- A batch whose two entries request counts of 51 and 50 (total 101). -/
def batch101 : List BatchRequest :=
  [{ type := "uuid4", count := 51 }, { type := "uuid4", count := 50 }]

/-- A batch with two entries of the same type (counts 2 and 3). -/
def batchDupPin : List BatchRequest :=
  [{ type := "pin", count := 2 }, { type := "pin", count := 3 }]

/-- The successful outcome of the duplicate-type batch on the all-zero
stream. -/
def batchDupPinOut : BatchResult :=
  (generateBatch batchDupPin 0 zeroSrc 0).toOption.map Prod.fst |>.getD
    { results := [], metadata := { type := "", length := 0 } }

/-- The sum of the minimum counts of the enabled classes. -/
def minsSum (opts : GenOptions) : Nat :=
  ((classSets opts).map (fun s => s.min)).sum

/-- Membership of an optional character in a charset (an absent character
belongs to no charset). -/
def optHas (cs : List Char) (o : Option Char) : Bool :=
  (o.map (fun c => decide (c ∈ cs))).getD false

-- ===========================================================================
-- Helper lemmas: byte source and hex encoding
-- ===========================================================================

theorem gsrb_length (n : Nat) (rand : ByteSrc) (pos : Nat) :
    (getSecureRandomBytes n rand pos).length = n := by
  simp [getSecureRandomBytes]

theorem gsrb_lt (n : Nat) (rand : ByteSrc) (pos : Nat) :
    ∀ b ∈ getSecureRandomBytes n rand pos, b < 256 := by
  intro b hb
  simp only [getSecureRandomBytes, List.mem_map] at hb
  obtain ⟨i, -, rfl⟩ := hb
  exact Nat.mod_lt _ (by norm_num)

theorem bytesToHex_length (bs : List Nat) : (bytesToHex bs).length = 2 * bs.length := by
  induction bs with
  | nil => simp [bytesToHex]
  | cons b t ih =>
      simp only [bytesToHex, List.flatMap_cons] at ih ⊢
      simp only [List.length_append, List.length_cons, List.length_nil, ih,
        List.length_map]
      omega

theorem hexDig_mem : ∀ d, d < 16 → hexDig d ∈ CHARSETS.hex_lower := by decide

theorem bytesToHex_mem (bs : List Nat) (hb : ∀ b ∈ bs, b < 256) :
    ∀ c ∈ bytesToHex bs, c ∈ CHARSETS.hex_lower := by
  induction bs with
  | nil => simp [bytesToHex]
  | cons b t ih =>
      intro c hc
      simp only [bytesToHex, List.flatMap_cons, List.mem_append, List.mem_cons,
        List.not_mem_nil, or_false] at hc
      have hblt : b < 256 := hb b (by simp)
      rcases hc with (rfl | rfl) | hc
      · exact hexDig_mem _ (by omega)
      · exact hexDig_mem _ (by omega)
      · exact ih (fun x hx => hb x (by simp [hx])) c hc

-- ===========================================================================
-- Helper lemmas: swaps and the Fisher-Yates shuffle
-- ===========================================================================

theorem perm_set_of_getElem {α : Type} (xs : List α) (j : Nat) (b x : α)
    (h : xs[j]? = some b) : List.Perm (b :: xs.set j x) (x :: xs) := by
  induction xs generalizing j with
  | nil => simp at h
  | cons y t ih =>
      cases j with
      | zero =>
          simp only [List.getElem?_cons_zero, Option.some_inj] at h
          subst h
          simpa [List.set] using List.Perm.swap x y t
      | succ j' =>
          simp only [List.getElem?_cons_succ] at h
          have step1 : List.Perm (b :: y :: t.set j' x) (y :: b :: t.set j' x) :=
            List.Perm.swap y b _
          have step2 : List.Perm (y :: b :: t.set j' x) (y :: x :: t) :=
            List.Perm.cons y (ih j' h)
          have step3 : List.Perm (y :: x :: t) (x :: y :: t) := List.Perm.swap x y t
          simpa [List.set] using (step1.trans step2).trans step3

theorem swapL_perm {α : Type} : ∀ (l : List α) (i j : Nat), List.Perm (swapL l i j) l := by
  intro l
  induction l with
  | nil => intro i j; simp [swapL]
  | cons x t ih =>
      intro i j
      cases i with
      | zero =>
          cases j with
          | zero => simp [swapL, List.set]
          | succ j' =>
              cases hj : t[j']? with
              | none => simp [swapL, hj]
              | some b =>
                  simpa [swapL, hj, List.set] using perm_set_of_getElem t j' b x hj
      | succ i' =>
          cases j with
          | zero =>
              cases hi : t[i']? with
              | none => simp [swapL, hi]
              | some a =>
                  simpa [swapL, hi, List.set] using perm_set_of_getElem t i' a x hi
          | succ j' =>
              cases hi : t[i']? with
              | none => simp [swapL, hi]
              | some a =>
                  cases hj : t[j']? with
                  | none => simp [swapL, hi, hj]
                  | some b =>
                      have := ih i' j'
                      simpa [swapL, hi, hj, List.set] using List.Perm.cons x this

theorem fyAux_perm {α : Type} (rand : ByteSrc) :
    ∀ (i pos : Nat) (l : List α), List.Perm (fyAux rand i pos l).1 l := by
  intro i
  induction i with
  | zero => intro pos l; simp [fyAux]
  | succ i ih =>
      intro pos l
      have h1 := ih (pos + 1) (swapL l (i + 1) (rand pos % 256 % (i + 2)))
      have h2 := swapL_perm l (i + 1) (rand pos % 256 % (i + 2))
      simpa [fyAux] using h1.trans h2

theorem fyShuffle_perm {α : Type} (l : List α) (rand : ByteSrc) (pos : Nat) :
    List.Perm (fyShuffle l rand pos).1 l :=
  fyAux_perm rand (l.length - 1) pos l

-- ===========================================================================
-- Helper lemmas: filterMap on option lists
-- ===========================================================================

theorem filterMap_id_length {α : Type} (l : List (Option α))
    (h : ∀ o ∈ l, o.isSome) : (l.filterMap id).length = l.length := by
  induction l with
  | nil => simp
  | cons o t ih =>
      cases o with
      | none => exact absurd (h none (by simp)) (by simp)
      | some a =>
          simp only [List.filterMap_cons, id_eq, List.length_cons]
          rw [ih (fun x hx => h x (by simp [hx]))]

theorem countP_filterMap_id {α : Type} (p : α → Bool) (l : List (Option α)) :
    (l.filterMap id).countP p = l.countP (fun o => (o.map p).getD false) := by
  induction l with
  | nil => simp
  | cons o t ih =>
      cases o with
      | none => simpa [List.countP_cons] using ih
      | some a => simp [List.countP_cons, ih]

-- ===========================================================================
-- Helper lemmas: charset draws
-- ===========================================================================

theorem drawOne_isSome (chars : List Char) (b : Nat) (h : chars ≠ []) :
    (drawOne chars b).isSome := by
  unfold drawOne
  rw [dif_pos (List.length_pos.mpr h)]
  rfl

theorem drawOne_mem (chars : List Char) (b : Nat) (c : Char)
    (h : drawOne chars b = some c) : c ∈ chars := by
  unfold drawOne at h
  split at h
  · cases h
    exact List.get_mem _ _ _
  · cases h

theorem drawMins_length (sets : List ClassSet) (rand : ByteSrc) (pos : Nat) :
    (drawMins sets rand pos).1.length = (sets.map (fun s => s.min)).sum := by
  induction sets generalizing pos with
  | nil => simp [drawMins]
  | cons s rest ih => simp [drawMins, ih]

theorem drawMins_isSome (sets : List ClassSet) (rand : ByteSrc) (pos : Nat)
    (h : ∀ s ∈ sets, s.chars ≠ []) :
    ∀ o ∈ (drawMins sets rand pos).1, o.isSome := by
  induction sets generalizing pos with
  | nil => simp [drawMins]
  | cons s rest ih =>
      intro o ho
      simp only [drawMins, List.mem_append, List.mem_map, List.mem_range] at ho
      rcases ho with ⟨k, -, rfl⟩ | ho
      · exact drawOne_isSome _ _ (h s (by simp))
      · exact ih (pos + s.min) (fun x hx => h x (by simp [hx])) o ho

theorem drawMins_countP (sets : List ClassSet) (rand : ByteSrc) (pos : Nat)
    (s₀ : ClassSet) (hs : s₀ ∈ sets) (hne : s₀.chars ≠ []) :
    s₀.min ≤ (drawMins sets rand pos).1.countP (optHas s₀.chars) := by
  induction sets generalizing pos with
  | nil => simp at hs
  | cons s rest ih =>
      simp only [drawMins, List.countP_append]
      rcases List.mem_cons.mp hs with rfl | hs'
      · have hall : ∀ o ∈ (List.range s₀.min).map
            (fun k => drawOne s₀.chars (rand (pos + k) % 256)),
            optHas s₀.chars o = true := by
          intro o ho
          simp only [List.mem_map, List.mem_range] at ho
          obtain ⟨k, -, rfl⟩ := ho
          cases hd : drawOne s₀.chars (rand (pos + k) % 256) with
          | none =>
              have hsome := drawOne_isSome s₀.chars (rand (pos + k) % 256) hne
              rw [hd] at hsome
              simp at hsome
          | some c =>
              simp only [optHas, hd, Option.map_some, Option.getD_some]
              exact decide_eq_true (drawOne_mem _ _ _ hd)
        have hcount := List.countP_eq_length.mpr hall
        simp only [hcount, List.length_map, List.length_range]
        exact Nat.le_add_right _ _
      · exact le_trans (ih (pos + s.min) hs') (Nat.le_add_left _ _)

-- ===========================================================================
-- Helper lemmas: the password pool and value
-- ===========================================================================

theorem passwordCharset_ne_nil (opts : GenOptions)
    (h1 : ∀ s ∈ classSets opts, s.chars ≠ []) (h2 : classSets opts ≠ []) :
    passwordCharset opts ≠ [] := by
  obtain ⟨s, hs⟩ := List.exists_mem_of_ne_nil _ h2
  obtain ⟨c, hc⟩ := List.exists_mem_of_ne_nil _ (h1 s hs)
  exact List.ne_nil_of_mem (List.mem_flatMap.mpr ⟨s, hs, hc⟩)

theorem passwordPool_length (len : Nat) (opts : GenOptions) (rand : ByteSrc) (pos : Nat) :
    (passwordPool len opts rand pos).1.length = minsSum opts + (len - minsSum opts) := by
  simp [passwordPool, drawFill, drawMins_length, minsSum]

theorem passwordPool_isSome (len : Nat) (opts : GenOptions) (rand : ByteSrc) (pos : Nat)
    (h1 : ∀ s ∈ classSets opts, s.chars ≠ []) (h2 : classSets opts ≠ []) :
    ∀ o ∈ (passwordPool len opts rand pos).1, o.isSome := by
  intro o ho
  simp only [passwordPool, List.mem_append] at ho
  rcases ho with ho | ho
  · exact drawMins_isSome _ _ _ h1 o ho
  · simp only [drawFill, List.mem_map, List.mem_range] at ho
    obtain ⟨k, -, rfl⟩ := ho
    exact drawOne_isSome _ _ (passwordCharset_ne_nil opts h1 h2)

theorem passwordPool_countP (len : Nat) (opts : GenOptions) (rand : ByteSrc) (pos : Nat)
    (s₀ : ClassSet) (hs : s₀ ∈ classSets opts) (hne : s₀.chars ≠ []) :
    s₀.min ≤ (passwordPool len opts rand pos).1.countP (optHas s₀.chars) := by
  simp only [passwordPool, List.countP_append]
  exact le_trans (drawMins_countP _ rand pos s₀ hs hne) (Nat.le_add_right _ _)

theorem generatePassword_value (len : Nat) (opts : GenOptions) (rand : ByteSrc) (pos : Nat) :
    (generatePassword len opts rand pos).1.value.toList
      = ((fyShuffle (passwordPool len opts rand pos).1 rand
            (passwordPool len opts rand pos).2).1.filterMap id) := rfl

theorem generatePassword_value_perm (len : Nat) (opts : GenOptions) (rand : ByteSrc)
    (pos : Nat) :
    List.Perm (generatePassword len opts rand pos).1.value.toList
      ((passwordPool len opts rand pos).1.filterMap id) := by
  have h := fyShuffle_perm (passwordPool len opts rand pos).1 rand
    (passwordPool len opts rand pos).2
  rw [generatePassword_value]
  exact h.filterMap id

theorem generatePassword_value_length (len : Nat) (opts : GenOptions) (rand : ByteSrc)
    (pos : Nat) (h1 : ∀ s ∈ classSets opts, s.chars ≠ []) (h2 : classSets opts ≠ [])
    (h3 : minsSum opts ≤ len) :
    (generatePassword len opts rand pos).1.value.length = len := by
  have hperm := generatePassword_value_perm len opts rand pos
  have hlen1 : (generatePassword len opts rand pos).1.value.length
      = (generatePassword len opts rand pos).1.value.toList.length := rfl
  rw [hlen1, hperm.length_eq,
    filterMap_id_length _ (passwordPool_isSome len opts rand pos h1 h2),
    passwordPool_length]
  omega

theorem generatePassword_value_countP (len : Nat) (opts : GenOptions) (rand : ByteSrc)
    (pos : Nat) (s₀ : ClassSet) (hs : s₀ ∈ classSets opts) (hne : s₀.chars ≠ []) :
    s₀.min ≤ (generatePassword len opts rand pos).1.value.toList.countP
      (fun c => decide (c ∈ s₀.chars)) := by
  have hperm := generatePassword_value_perm len opts rand pos
  rw [hperm.countP_eq, countP_filterMap_id]
  exact passwordPool_countP len opts rand pos s₀ hs hne

-- ===========================================================================
-- Helper lemmas: UUID v4
-- ===========================================================================

theorem uuidBytes_length (rand : ByteSrc) (pos : Nat) : (uuidBytes rand pos).length = 16 := by
  simp [uuidBytes, gsrb_length]

theorem or64_lt : ∀ x, x < 16 → (x ||| 64) < 256 := by decide

theorem or128_lt : ∀ x, x < 64 → (x ||| 128) < 256 := by decide

theorem uuidBytes_lt (rand : ByteSrc) (pos : Nat) : ∀ b ∈ uuidBytes rand pos, b < 256 := by
  intro b hb
  unfold uuidBytes at hb
  rcases List.mem_or_eq_of_mem_set hb with hb | rfl
  · rcases List.mem_or_eq_of_mem_set hb with hb | rfl
    · exact gsrb_lt _ _ _ _ hb
    · exact or64_lt _ (Nat.lt_of_le_of_lt (Nat.and_le_right) (by norm_num))
  · exact or128_lt _ (Nat.lt_of_le_of_lt (Nat.and_le_right) (by norm_num))

theorem uuid4Chars_mem (rand : ByteSrc) (pos : Nat) :
    ∀ c ∈ uuid4Chars rand pos, c = '-' ∨ c ∈ CHARSETS.hex_lower := by
  intro c hc
  unfold uuid4Chars at hc
  have hhex : ∀ x ∈ bytesToHex (uuidBytes rand pos), x ∈ CHARSETS.hex_lower :=
    bytesToHex_mem _ (uuidBytes_lt rand pos)
  simp only [List.mem_append, List.mem_singleton] at hc
  rcases hc with ((((((((hc | rfl) | hc) | rfl) | hc) | rfl) | hc) | rfl) | hc) <;>
    first
      | exact Or.inl rfl
      | exact Or.inr (hhex c (List.take_subset _ _ hc))
      | exact Or.inr (hhex c (List.drop_subset _ _ (List.take_subset _ _ hc)))

set_option maxHeartbeats 1000000 in
theorem uuid4Chars_version (rand : ByteSrc) (pos : Nat) :
    (uuid4Chars rand pos)[14]?
      = some (hexDig ((((rand (pos + 6) % 256) &&& 15) ||| 64) / 16)) := rfl

set_option maxHeartbeats 1000000 in
theorem uuid4Chars_variant (rand : ByteSrc) (pos : Nat) :
    (uuid4Chars rand pos)[19]?
      = some (hexDig ((((rand (pos + 8) % 256) &&& 63) ||| 128) / 16)) := rfl

set_option maxRecDepth 4000 in
theorem versionDigit_eq : ∀ x, x < 256 → hexDig (((x &&& 15) ||| 64) / 16) = '4' := by
  decide

set_option maxRecDepth 4000 in
theorem variantDigit_mem :
    ∀ x, x < 256 → hexDig (((x &&& 63) ||| 128) / 16) ∈ ['8', '9', 'a', 'b'] := by
  decide

-- ===========================================================================
-- Helper lemmas: lexicographic order on character lists
-- ===========================================================================

theorem lex_append_of_lex {α : Type} {r : α → α → Prop} {l1 l2 : List α}
    (h : List.Lex r l1 l2) :
    l1.length = l2.length → ∀ s1 s2 : List α, List.Lex r (l1 ++ s1) (l2 ++ s2) := by
  induction h with
  | nil => intro hlen; simp at hlen
  | rel hab => intro _ s1 s2; exact List.Lex.rel hab
  | cons _ ih =>
      intro hlen s1 s2
      exact List.Lex.cons (ih (by simpa using hlen) s1 s2)

theorem lex_append_last {α : Type} {r : α → α → Prop} {x y : α} (hxy : r x y) :
    ∀ p s1 s2 : List α, List.Lex r (p ++ x :: s1) (p ++ y :: s2) := by
  intro p
  induction p with
  | nil => intro s1 s2; exact List.Lex.rel hxy
  | cons a t ih => intro s1 s2; exact List.Lex.cons (ih s1 s2)

-- ===========================================================================
-- Helper lemmas: ULID timestamp encoding
-- ===========================================================================

theorem encodeTimeGo_append (i : Nat) :
    ∀ (t : Nat) (acc : List Char), encodeTimeGo i t acc = encodeTimeGo i t [] ++ acc := by
  induction i with
  | zero => intro t acc; simp [encodeTimeGo]
  | succ i ih =>
      intro t acc
      have h1 : encodeTimeGo (i + 1) t acc
          = encodeTimeGo i (t / 32) (b32Dig (t % 32) :: acc) := rfl
      have h2 : encodeTimeGo (i + 1) t []
          = encodeTimeGo i (t / 32) [b32Dig (t % 32)] := rfl
      rw [h1, h2, ih (t / 32) (b32Dig (t % 32) :: acc), ih (t / 32) [b32Dig (t % 32)]]
      simp

theorem encodeTimeGo_length (i : Nat) :
    ∀ (t : Nat) (acc : List Char), (encodeTimeGo i t acc).length = i + acc.length := by
  induction i with
  | zero => intro t acc; simp [encodeTimeGo]
  | succ i ih =>
      intro t acc
      have h1 : encodeTimeGo (i + 1) t acc
          = encodeTimeGo i (t / 32) (b32Dig (t % 32) :: acc) := rfl
      rw [h1, ih]
      simp
      omega

theorem encodeTime_length (t : Nat) : (encodeTime t).length = 10 := by
  simp [encodeTime, encodeTimeGo_length]

theorem encodeTimeGo_succ_eq (i t : Nat) :
    encodeTimeGo (i + 1) t [] = encodeTimeGo i (t / 32) [] ++ [b32Dig (t % 32)] := by
  have h1 : encodeTimeGo (i + 1) t [] = encodeTimeGo i (t / 32) [b32Dig (t % 32)] := rfl
  rw [h1]
  exact encodeTimeGo_append i (t / 32) [b32Dig (t % 32)]

theorem b32Dig_mem : ∀ d, d < 32 → b32Dig d ∈ ulidBase32 := by decide

theorem b32Dig_lt : ∀ d1, d1 < 32 → ∀ d2, d2 < 32 → d1 < d2 → b32Dig d1 < b32Dig d2 := by
  decide

theorem encodeTimeGo_mem (i : Nat) :
    ∀ (t : Nat) (acc : List Char), (∀ c ∈ acc, c ∈ ulidBase32) →
      ∀ c ∈ encodeTimeGo i t acc, c ∈ ulidBase32 := by
  induction i with
  | zero => intro t acc hacc; exact hacc
  | succ i ih =>
      intro t acc hacc c hc
      refine ih (t / 32) (b32Dig (t % 32) :: acc) ?_ c hc
      intro x hx
      rcases List.mem_cons.mp hx with rfl | hx
      · exact b32Dig_mem _ (Nat.mod_lt _ (by norm_num))
      · exact hacc x hx

theorem ulidRandomPart_mem (bytes : List Nat) :
    ∀ c ∈ ulidRandomPart bytes, c ∈ ulidBase32 := by
  intro c hc
  simp only [ulidRandomPart, List.mem_map, List.mem_range] at hc
  obtain ⟨i, -, rfl⟩ := hc
  exact b32Dig_mem _ (Nat.mod_lt _ (by norm_num))

/-- Strict monotonicity of the fixed-width big-endian base32 encoding. -/
theorem encodeTimeGo_lex : ∀ (n t1 t2 : Nat), t1 < t2 → t2 < 32 ^ n →
    List.Lex (fun a b : Char => a < b) (encodeTimeGo n t1 []) (encodeTimeGo n t2 []) := by
  intro n
  induction n with
  | zero =>
      intro t1 t2 h1 h2
      simp only [pow_zero, Nat.lt_one_iff] at h2
      omega
  | succ n ih =>
      intro t1 t2 h1 h2
      rw [encodeTimeGo_succ_eq, encodeTimeGo_succ_eq]
      rcases Nat.lt_or_ge (t1 / 32) (t2 / 32) with hq | hq
      · have hlen : (encodeTimeGo n (t1 / 32) []).length
            = (encodeTimeGo n (t2 / 32) []).length := by
          simp [encodeTimeGo_length]
        have ht2 : t2 / 32 < 32 ^ n := by
          have hp : (32 : Nat) ^ (n + 1) = 32 ^ n * 32 := by ring
          exact (Nat.div_lt_iff_lt_mul (by norm_num)).mpr (by omega)
        exact lex_append_of_lex (ih _ _ hq ht2) hlen _ _
      · have hq' : t1 / 32 = t2 / 32 :=
          Nat.le_antisymm (Nat.div_le_div_right (le_of_lt h1)) hq
        have hr : t1 % 32 < t2 % 32 := by
          have e1 := Nat.div_add_mod t1 32
          have e2 := Nat.div_add_mod t2 32
          omega
        rw [hq']
        exact lex_append_last
          (b32Dig_lt _ (Nat.mod_lt _ (by norm_num)) _ (Nat.mod_lt _ (by norm_num)) hr) _ _ _

-- ===========================================================================
-- Helper lemmas: batch generation
-- ===========================================================================

theorem lookupKey_setKey_self {α : Type} (m : List (String × α)) (k : String) (v : α) :
    lookupKey (setKey m k v) k = some v := by
  induction m with
  | nil => simp [setKey, lookupKey]
  | cons kv rest ih =>
      obtain ⟨k', v'⟩ := kv
      by_cases h : k' = k
      · simp [setKey, lookupKey, h]
      · simp [setKey, lookupKey, h, ih]

theorem lookupKey_setKey_other {α : Type} (m : List (String × α)) (k k' : String) (v : α)
    (h : k ≠ k') : lookupKey (setKey m k v) k' = lookupKey m k' := by
  induction m with
  | nil => simp [setKey, lookupKey, h]
  | cons kv rest ih =>
      obtain ⟨k0, v0⟩ := kv
      by_cases h0 : k0 = k
      · subst h0
        simp [setKey, lookupKey, h]
      · simp [setKey, lookupKey, h0, ih]

theorem genN_length (ty : String) (opts : GenOptions) (nowMs : Nat) (rand : ByteSrc) :
    ∀ (c pos : Nat) (items : List GenerationResult) (pend : Nat),
      genN ty opts nowMs rand c pos = .ok (items, pend) → items.length = c := by
  intro c
  induction c with
  | zero =>
      intro pos items pend h
      simp only [genN, Except.ok.injEq, Prod.mk.injEq] at h
      rw [← h.1]
      rfl
  | succ c ih =>
      intro pos items pend h
      cases hg : genOne ty opts nowMs rand pos with
      | error e => simp [genN, hg] at h
      | ok rp =>
          obtain ⟨r, pos'⟩ := rp
          cases hgn : genN ty opts nowMs rand c pos' with
          | error e => simp [genN, hg, hgn] at h
          | ok rsp =>
              obtain ⟨rs, p''⟩ := rsp
              simp only [genN, hg, hgn, Except.ok.injEq, Prod.mk.injEq] at h
              rw [← h.1]
              simp [ih pos' rs p'' hgn]

theorem runBatch_frozen (nowMs : Nat) (rand : ByteSrc) (ty : String) :
    ∀ (reqs : List BatchRequest) (pos : Nat)
      (acc m : List (String × List GenerationResult)) (pend : Nat),
      runBatch reqs nowMs rand pos acc = .ok (m, pend) →
      (∀ r ∈ reqs, r.type ≠ ty) → lookupKey m ty = lookupKey acc ty := by
  intro reqs
  induction reqs with
  | nil =>
      intro pos acc m pend h _
      simp only [runBatch, Except.ok.injEq, Prod.mk.injEq] at h
      rw [← h.1]
  | cons r rest ih =>
      intro pos acc m pend h hne
      cases hg : genN r.type r.options nowMs rand r.count pos with
      | error e => simp [runBatch, hg] at h
      | ok ip =>
          obtain ⟨items0, pos0⟩ := ip
          simp only [runBatch, hg] at h
          have hrest := ih pos0 (setKey acc r.type items0) m pend h
            (fun x hx => hne x (List.mem_cons_of_mem r hx))
          rw [hrest, lookupKey_setKey_other]
          exact hne r (List.mem_cons_self r rest)

theorem runBatch_last (nowMs : Nat) (rand : ByteSrc) (ty : String) :
    ∀ (reqs : List BatchRequest) (j : Nat) (rj : BatchRequest) (pos : Nat)
      (acc m : List (String × List GenerationResult)) (pend : Nat),
      runBatch reqs nowMs rand pos acc = .ok (m, pend) →
      reqs[j]? = some rj → rj.type = ty →
      (∀ k rk, reqs[k]? = some rk → j < k → rk.type ≠ ty) →
      ∃ p p' items, genN ty rj.options nowMs rand rj.count p = .ok (items, p')
        ∧ lookupKey m ty = some items := by
  intro reqs
  induction reqs with
  | nil => intro j rj pos acc m pend _ hj; simp at hj
  | cons r rest ih =>
      intro j rj pos acc m pend hrun hj hty hlast
      cases hg : genN r.type r.options nowMs rand r.count pos with
      | error e => simp [runBatch, hg] at hrun
      | ok ip =>
          obtain ⟨items0, pos0⟩ := ip
          simp only [runBatch, hg] at hrun
          cases j with
          | zero =>
              simp only [List.getElem?_cons_zero, Option.some_inj] at hj
              subst hj
              have hfro : lookupKey m ty = lookupKey (setKey acc r.type items0) ty := by
                refine runBatch_frozen nowMs rand ty rest pos0 _ m pend hrun ?_
                intro x hx
                obtain ⟨k, hk⟩ := List.mem_iff_getElem?.mp hx
                exact hlast (k + 1) x (by simpa using hk) (Nat.succ_pos _)
              refine ⟨pos, pos0, items0, ?_, ?_⟩
              · rw [← hty]; exact hg
              · rw [hfro, ← hty]
                exact lookupKey_setKey_self acc r.type items0
          | succ j' =>
              refine ih j' rj pos0 (setKey acc r.type items0) m pend hrun
                (by simpa using hj) hty ?_
              intro k rk hk hgt
              exact hlast (k + 1) rk (by simpa using hk) (by omega)

theorem generateBatch_ok (reqs : List BatchRequest) (nowMs : Nat) (rand : ByteSrc)
    (pos : Nat) (out : BatchResult) (pend : Nat)
    (h : generateBatch reqs nowMs rand pos = .ok (out, pend)) :
    out.metadata.total_items = some (sumCounts reqs)
    ∧ runBatch reqs nowMs rand pos [] = .ok (out.results, pend) := by
  unfold generateBatch at h
  cases hr : runBatch reqs nowMs rand pos [] with
  | error e => rw [hr] at h; simp at h
  | ok mp =>
      obtain ⟨m, p⟩ := mp
      rw [hr] at h
      simp only [Except.ok.injEq, Prod.mk.injEq] at h
      obtain ⟨hout, hp⟩ := h
      subst hp
      constructor
      · rw [← hout]
      · rw [← hout]

theorem keySizes_none_of_ivSizes_none (k : String) :
    tableGet ivSizes k = none → tableGet keySizes k = none := by
  intro h
  simp only [ivSizes, tableGet] at h
  simp only [keySizes, tableGet]
  split_ifs at h ⊢
  all_goals simp_all

-- ===========================================================================
-- Claim theorems
-- ===========================================================================

/-- C9: for every length ≥ 1 and every random byte stream,
generateHexString(length) returns a string of exactly `length`
characters, each a lowercase hexadecimal digit, and its metadata reports
entropy_bits = 4 × length and length = length. -/
theorem C9_hexString_spec (len : Nat) (rand : ByteSrc) (pos : Nat) (_hlen : 1 ≤ len) :
    (generateHexString len rand pos).1.value.length = len
    ∧ (∀ c ∈ (generateHexString len rand pos).1.value.toList, c ∈ CHARSETS.hex_lower)
    ∧ (generateHexString len rand pos).1.metadata.entropy_bits = some (len * 4)
    ∧ (generateHexString len rand pos).1.metadata.length = len := by
  refine ⟨?_, ?_, rfl, rfl⟩
  · show ((bytesToHex (getSecureRandomBytes ((len + 1) / 2) rand pos)).take len).length = len
    rw [List.length_take, bytesToHex_length, gsrb_length]
    omega
  · intro c hc
    have hc' : c ∈ bytesToHex (getSecureRandomBytes ((len + 1) / 2) rand pos) :=
      List.take_subset _ _ hc
    exact bytesToHex_mem _ (gsrb_lt _ _ _) c hc'

/-- Witness for C9 at length 32: the reported entropy is 128 bits. -/
theorem C9_hexString_spec_witness :
    (1 ≤ 32)
    ∧ ((generateHexString 32 zeroSrc 0).1.value.length = 32
        ∧ (∀ c ∈ (generateHexString 32 zeroSrc 0).1.value.toList, c ∈ CHARSETS.hex_lower)
        ∧ (generateHexString 32 zeroSrc 0).1.metadata.entropy_bits = some (32 * 4)
        ∧ (generateHexString 32 zeroSrc 0).1.metadata.length = 32) :=
  ⟨by norm_num, C9_hexString_spec 32 zeroSrc 0 (by norm_num)⟩

/-- C8: generateIv sizes its output by the per-cipher table (all aes
variants 16 bytes, des and blowfish 8, chacha20 12); an algorithm name
missing from the table succeeds with the default 16 bytes (and the
encryption-key generator with its default 32); the metadata carries the
requested algorithm name verbatim, so whether the fallback was used is
computable from the metadata (ivFallbackUsed). -/
theorem C8_iv_spec (alg : String) (rand : ByteSrc) (pos : Nat) :
    ((generateIv "aes128" rand pos).1.metadata.byte_size = some 16
      ∧ (generateIv "aes192" rand pos).1.metadata.byte_size = some 16
      ∧ (generateIv "aes256" rand pos).1.metadata.byte_size = some 16
      ∧ (generateIv "des" rand pos).1.metadata.byte_size = some 8
      ∧ (generateIv "blowfish" rand pos).1.metadata.byte_size = some 8
      ∧ (generateIv "chacha20" rand pos).1.metadata.byte_size = some 12)
    ∧ (generateIv alg rand pos).1.metadata.byte_size
        = some (jsOr (tableGet ivSizes (jsToLower alg)) 16)
    ∧ (tableGet ivSizes (jsToLower alg) = none →
        (generateIv alg rand pos).1.metadata.byte_size = some 16
        ∧ (generateEncryptionKey alg rand pos).1.metadata.byte_size = some 32)
    ∧ (generateIv alg rand pos).1.metadata.algorithm = some alg
    ∧ ivFallbackUsed (((generateIv alg rand pos).1.metadata.algorithm).getD "")
        = ivFallbackUsed alg := by
  refine ⟨⟨rfl, rfl, rfl, rfl, rfl, rfl⟩, rfl, ?_, rfl, rfl⟩
  intro h
  constructor
  · show some (jsOr (tableGet ivSizes (jsToLower alg)) 16) = some 16
    rw [h]
    rfl
  · show some (jsOr (tableGet keySizes (jsToLower alg)) 32) = some 32
    rw [keySizes_none_of_ivSizes_none _ h]
    rfl

/-- Witness for C8 at the unknown algorithm name twofish. -/
theorem C8_iv_spec_witness :
    (tableGet ivSizes (jsToLower "twofish") = none)
    ∧ (generateIv "twofish" zeroSrc 0).1.metadata.byte_size = some 16
    ∧ (generateEncryptionKey "twofish" zeroSrc 0).1.metadata.byte_size = some 32 := by
  have h : tableGet ivSizes (jsToLower "twofish") = none := by decide
  exact ⟨h, (C8_iv_spec "twofish" zeroSrc 0).2.2.1 h⟩

/-- C1: whenever a batch request list has a total requested count over
100 or any entry with count over 20, the generateBatch tool pipeline
fails validation with the resource-protection errors, identically for
every random byte stream (generateBatch is never invoked, so no random
bytes are drawn and no partial results exist); in particular a total of
101 fails this way (see the witness). -/
theorem C1_batch_limit (reqs : List BatchRequest) (nowMs : Nat) (rand : ByteSrc)
    (h : 100 < sumCounts reqs ∨ ∃ r ∈ reqs, 20 < r.count) :
    generateBatchTool reqs nowMs rand
        = .validationError (validateBatchSecurity reqs).2
    ∧ (validateBatchSecurity reqs).2 ≠ []
    ∧ ∀ e ∈ (validateBatchSecurity reqs).2,
        e = resourceLimitTotalMsg ∨ e = resourceLimitItemMsg := by
  have herr : (validateBatchSecurity reqs).2 ≠ [] := by
    simp only [validateBatchSecurity]
    rcases h with h | ⟨r, hr, hc⟩
    · simp [h]
    · have hmem : r ∈ reqs.filter (fun r => decide (20 < r.count)) :=
        List.mem_filter.mpr ⟨hr, by simpa using hc⟩
      have hpos : 0 < (reqs.filter (fun r => decide (20 < r.count))).length :=
        List.length_pos.mpr (List.ne_nil_of_mem hmem)
      simp [hpos]
  have hvalid : (validateBatchSecurity reqs).1 = false := by
    have h1 : (validateBatchSecurity reqs).1
        = ((validateBatchSecurity reqs).2).isEmpty := rfl
    rw [h1]
    cases hl : (validateBatchSecurity reqs).2 with
    | nil => exact absurd hl herr
    | cons a l => rfl
  refine ⟨?_, herr, ?_⟩
  · simp [generateBatchTool, hvalid]
  · intro e he
    simp only [validateBatchSecurity, List.mem_append] at he
    rcases he with he | he
    · left
      revert he
      split <;> simp_all
    · right
      revert he
      split <;> simp_all

/-- Witness for C1: a batch with total requested count 101 across two
entries is rejected by validation for every stream (shown on the
all-zero stream). -/
theorem C1_batch_limit_witness :
    (100 < sumCounts batch101)
    ∧ generateBatchTool batch101 0 zeroSrc
        = .validationError (validateBatchSecurity batch101).2
    ∧ (validateBatchSecurity batch101).2 ≠ [] := by
  have h : 100 < sumCounts batch101 := by decide
  have hc := C1_batch_limit batch101 0 zeroSrc (Or.inl h)
  exact ⟨h, hc.1, hc.2.1⟩

/-- C4 (claim as stated is wrong, the code is the bug): when the
exclusions empty the assembled charset, generateRandomString does not
fail with an invalid-configuration error; each draw indexes the empty
charset, produces the JavaScript undefined, and string-appends the text
of the word undefined, so a 2-character request over a fully excluded
charset returns the 18-character string undefinedundefined. -/
theorem C4_emptyCharset_bug :
    rsCharset cexEmptyCharsetOpts = []
    ∧ (generateRandomString 2 cexEmptyCharsetOpts zeroSrc 0).1.value
        = "undefinedundefined"
    ∧ (generateRandomString 2 cexEmptyCharsetOpts zeroSrc 0).1.metadata.length = 18 := by
  refine ⟨by decide, by decide, by decide⟩

/-- C2 counterexample: the core generatePassword does NOT reject options
whose minimum counts (2+2+2 plus the default min_special of 1, sum 7)
exceed the requested length 4; it returns a 7-character password (the
core has no error path at all). -/
theorem C2_core_no_reject_counterexample :
    (generatePassword 4 cexPasswordOpts zeroSrc 0).1.value.length = 7
    ∧ (generatePassword 4 cexPasswordOpts zeroSrc 0).1.value ≠ "" := by
  refine ⟨by decide, by decide⟩

/-- C2 amended: the rejection happens one layer up: the generatePassword
MCP tool runs validatePasswordSecurity before the core generator and
returns the sum-of-minimums error without generating anything whenever
the minimum counts exceed the length. -/
theorem C2_tool_rejects (inp : PasswordToolInput) (rand : ByteSrc) (pos : Nat)
    (h : inp.length < inp.min_uppercase + inp.min_lowercase
          + inp.min_numbers + inp.min_special) :
    generatePasswordTool inp rand pos = .error (validatePasswordSecurity inp).2
    ∧ minSumMsg ∈ (validatePasswordSecurity inp).2 := by
  have hmem : minSumMsg ∈ (validatePasswordSecurity inp).2 := by
    simp only [validatePasswordSecurity, List.mem_append]
    left
    simp [h]
  have hvalid : (validatePasswordSecurity inp).1 = false := by
    have h1 : (validatePasswordSecurity inp).1
        = ((validatePasswordSecurity inp).2).isEmpty := rfl
    rw [h1]
    cases hl : (validatePasswordSecurity inp).2 with
    | nil => rw [hl] at hmem; simp at hmem
    | cons a l => rfl
  constructor
  · simp [generatePasswordTool, hvalid]
  · exact hmem

/-- Witness for the amended C2 at the inputs named by the spec: length 4
with minimums 2, 2, 2 (and the schema default min_special = 1). -/
theorem C2_tool_rejects_witness :
    ((4 : Nat) < 2 + 2 + 2 + 1)
    ∧ generatePasswordTool
        { length := 4, min_uppercase := 2, min_lowercase := 2, min_numbers := 2 }
        zeroSrc 0
      = .error (validatePasswordSecurity
          { length := 4, min_uppercase := 2, min_lowercase := 2, min_numbers := 2 }).2 := by
  have hc := C2_tool_rejects
    { length := 4, min_uppercase := 2, min_lowercase := 2, min_numbers := 2 }
    zeroSrc 0 (by norm_num)
  exact ⟨by norm_num, hc.1⟩

/-- C3 counterexample: a generatePassword call whose minimum counts
(3+2+2 plus the default 1, sum 8) exceed the requested length 4 returns
a GenerationResult whose metadata length (the requested 4) differs from
the 8 characters of the value. -/
theorem C3_metadata_length_counterexample :
    (generatePassword 4 cexLengthOpts zeroSrc 0).1.metadata.length = 4
    ∧ (generatePassword 4 cexLengthOpts zeroSrc 0).1.value.length = 8
    ∧ (generatePassword 4 cexLengthOpts zeroSrc 0).1.metadata.length
        ≠ (generatePassword 4 cexLengthOpts zeroSrc 0).1.value.length := by
  refine ⟨by decide, by decide, by decide⟩

/-- C3 amended: for generateRandomString the metadata length always
equals the character count of the value; for generatePassword the
metadata length is the requested length, which equals the character
count of the value whenever at least one class is enabled, every
enabled class charset is nonempty, and the sum of the enabled minimums
is at most the requested length. -/
theorem C3_length_invariant (lenS : Nat) (optsS : GenOptions) (lenP : Nat)
    (optsP : GenOptions) (rand : ByteSrc) (pos : Nat)
    (h1 : ∀ s ∈ classSets optsP, s.chars ≠ []) (h2 : classSets optsP ≠ [])
    (h3 : minsSum optsP ≤ lenP) :
    (generateRandomString lenS optsS rand pos).1.metadata.length
        = (generateRandomString lenS optsS rand pos).1.value.length
    ∧ (generatePassword lenP optsP rand pos).1.metadata.length = lenP
    ∧ (generatePassword lenP optsP rand pos).1.value.length = lenP := by
  exact ⟨rfl, rfl, generatePassword_value_length lenP optsP rand pos h1 h2 h3⟩

/-- Witness for the amended C3 at default options. -/
theorem C3_length_invariant_witness :
    ((∀ s ∈ classSets {}, s.chars ≠ [])
      ∧ classSets ({} : GenOptions) ≠ [] ∧ minsSum {} ≤ 8)
    ∧ ((generateRandomString 5 {} zeroSrc 0).1.metadata.length
          = (generateRandomString 5 {} zeroSrc 0).1.value.length
        ∧ (generatePassword 8 {} zeroSrc 0).1.metadata.length = 8
        ∧ (generatePassword 8 {} zeroSrc 0).1.value.length = 8) := by
  exact ⟨⟨by decide, by decide, by decide⟩,
    C3_length_invariant 5 {} 8 {} zeroSrc 0 (by decide) (by decide) (by decide)⟩

/-- C6 counterexample: PasswordOptions disabling every character class
have an enabled-minimum sum of 0 ≤ 8, yet the generated value is the
empty string rather than 8 characters (every draw is the JavaScript
undefined and join skips them). -/
theorem C6_noClass_counterexample :
    minsSum cexNoClassOpts ≤ 8
    ∧ (generatePassword 8 cexNoClassOpts zeroSrc 0).1.value = ""
    ∧ (generatePassword 8 cexNoClassOpts zeroSrc 0).1.value.length ≠ 8 := by
  refine ⟨by decide, by decide, by decide⟩

/-- C6 amended: when at least one class is enabled, every enabled class
charset is nonempty, and the enabled minimums sum to at most the length,
the generated password has exactly `length` characters, contains at
least the minimum count from each enabled class charset, and is a
permutation of the drawn minimum-class and filler characters (the
Fisher-Yates-shuffled pool). -/
theorem C6_password_spec (len : Nat) (opts : GenOptions) (rand : ByteSrc) (pos : Nat)
    (h1 : ∀ s ∈ classSets opts, s.chars ≠ []) (h2 : classSets opts ≠ [])
    (h3 : minsSum opts ≤ len) :
    (generatePassword len opts rand pos).1.value.length = len
    ∧ (∀ s ∈ classSets opts,
        s.min ≤ (generatePassword len opts rand pos).1.value.toList.countP
          (fun c => decide (c ∈ s.chars)))
    ∧ List.Perm (generatePassword len opts rand pos).1.value.toList
        ((passwordPool len opts rand pos).1.filterMap id) := by
  refine ⟨generatePassword_value_length len opts rand pos h1 h2 h3, ?_,
    generatePassword_value_perm len opts rand pos⟩
  intro s hs
  exact generatePassword_value_countP len opts rand pos s hs (h1 s hs)

/-- Witness for the amended C6 at length 8 with the default minimum of
one character per class. -/
theorem C6_password_spec_witness :
    ((∀ s ∈ classSets {}, s.chars ≠ [])
      ∧ classSets ({} : GenOptions) ≠ [] ∧ minsSum {} ≤ 8)
    ∧ ((generatePassword 8 {} bit5Src 0).1.value.length = 8
        ∧ (∀ s ∈ classSets {},
            s.min ≤ (generatePassword 8 {} bit5Src 0).1.value.toList.countP
              (fun c => decide (c ∈ s.chars)))
        ∧ List.Perm (generatePassword 8 {} bit5Src 0).1.value.toList
            ((passwordPool 8 {} bit5Src 0).1.filterMap id)) := by
  exact ⟨⟨by decide, by decide, by decide⟩,
    C6_password_spec 8 {} bit5Src 0 (by decide) (by decide) (by decide)⟩

/-- C7: for every random byte stream, generateUuid4 produces 36
characters grouped 8-4-4-4-12 with dashes between all-hex lowercase
groups, the version hex digit at string position 14 is 4, the variant
hex digit at position 19 is one of 8, 9, a, b, and the metadata reports
122 bits of entropy. -/
theorem C7_uuid4_spec (rand : ByteSrc) (pos : Nat) :
    ∃ g1 g2 g3 g4 g5 : List Char,
      (generateUuid4 rand pos).1.value.toList
          = g1 ++ ['-'] ++ g2 ++ ['-'] ++ g3 ++ ['-'] ++ g4 ++ ['-'] ++ g5
      ∧ g1.length = 8 ∧ g2.length = 4 ∧ g3.length = 4 ∧ g4.length = 4 ∧ g5.length = 12
      ∧ (∀ c ∈ (generateUuid4 rand pos).1.value.toList,
            c = '-' ∨ c ∈ CHARSETS.hex_lower)
      ∧ ((generateUuid4 rand pos).1.value.toList)[14]? = some '4'
      ∧ (∃ c, ((generateUuid4 rand pos).1.value.toList)[19]? = some c
            ∧ c ∈ ['8', '9', 'a', 'b'])
      ∧ (generateUuid4 rand pos).1.metadata.entropy_bits = some 122
      ∧ (generateUuid4 rand pos).1.value.length = 36 := by
  have hval : (generateUuid4 rand pos).1.value.toList = uuid4Chars rand pos := rfl
  have hhexlen : (bytesToHex (uuidBytes rand pos)).length = 32 := by
    rw [bytesToHex_length, uuidBytes_length]
  refine ⟨(bytesToHex (uuidBytes rand pos)).take 8,
          ((bytesToHex (uuidBytes rand pos)).drop 8).take 4,
          ((bytesToHex (uuidBytes rand pos)).drop 12).take 4,
          ((bytesToHex (uuidBytes rand pos)).drop 16).take 4,
          ((bytesToHex (uuidBytes rand pos)).drop 20).take 12,
          ?_, ?_, ?_, ?_, ?_, ?_, ?_, ?_, ?_, rfl, ?_⟩
  · rw [hval]
    rfl
  · simp [List.length_take, hhexlen]
  · simp [List.length_take, List.length_drop, hhexlen]
  · simp [List.length_take, List.length_drop, hhexlen]
  · simp [List.length_take, List.length_drop, hhexlen]
  · simp [List.length_take, List.length_drop, hhexlen]
  · rw [hval]
    exact uuid4Chars_mem rand pos
  · rw [hval, uuid4Chars_version]
    exact congrArg some (versionDigit_eq _ (Nat.mod_lt _ (by norm_num)))
  · rw [hval, uuid4Chars_variant]
    exact ⟨_, rfl, variantDigit_mem _ (Nat.mod_lt _ (by norm_num))⟩
  · show (uuid4Chars rand pos).length = 36
    rfl

/-- C5 counterexample: two 10-byte random inputs that differ (in bit 5
of the first byte) produce identical 16-character random portions, so
distinct 80-bit random inputs do not yield distinct random portions and
the random part carries fewer than 80 bits. -/
theorem C5_ulid_random_counterexample :
    getSecureRandomBytes 10 zeroSrc 0 ≠ getSecureRandomBytes 10 bit5Src 0
    ∧ (generateUlid 0 zeroSrc 0).1.value.toList.drop 10
        = (generateUlid 0 bit5Src 0).1.value.toList.drop 10 := by
  refine ⟨by decide, by decide⟩

/-- C5 amended: every generated ULID is 26 Crockford base32 characters;
the first 10 encode the millisecond timestamp in big-endian base32 and
a ULID generated at a strictly larger timestamp below 2^48 is strictly
lexicographically larger; the last 16 characters are derived from the
10 random bytes by the index pattern floor(i * 10 / 16) reduced mod 32
(reusing bytes and dropping their high 3 bits), so they carry at most 50
bits and distinct random inputs can collide (see the counterexample). -/
theorem C5_ulid_spec (t : Nat) (rand : ByteSrc) (pos : Nat) :
    (generateUlid t rand pos).1.value.length = 26
    ∧ (∀ c ∈ (generateUlid t rand pos).1.value.toList, c ∈ ulidBase32)
    ∧ (generateUlid t rand pos).1.value.toList.take 10 = encodeTime t
    ∧ (generateUlid t rand pos).1.value.toList.drop 10
        = ulidRandomPart (getSecureRandomBytes 10 rand pos)
    ∧ ∀ (t' : Nat) (rand' : ByteSrc) (pos' : Nat), t < t' → t' < 2 ^ 48 →
        List.Lex (fun a b : Char => a < b)
          (generateUlid t rand pos).1.value.toList
          (generateUlid t' rand' pos').1.value.toList := by
  have hval : ∀ (u : Nat) (r : ByteSrc) (q : Nat),
      (generateUlid u r q).1.value.toList
        = encodeTime u ++ ulidRandomPart (getSecureRandomBytes 10 r q) :=
    fun _ _ _ => rfl
  refine ⟨?_, ?_, ?_, ?_, ?_⟩
  · have h : (generateUlid t rand pos).1.value.length
        = (encodeTime t ++ ulidRandomPart (getSecureRandomBytes 10 rand pos)).length := rfl
    rw [h, List.length_append, encodeTime_length]
    simp [ulidRandomPart]
  · intro c hc
    rw [hval] at hc
    rcases List.mem_append.mp hc with hc | hc
    · exact encodeTimeGo_mem 10 t [] (by simp) c hc
    · exact ulidRandomPart_mem _ c hc
  · rw [hval, show (10 : Nat) = (encodeTime t).length from (encodeTime_length t).symm]
    exact List.take_left _ _
  · rw [hval, show (10 : Nat) = (encodeTime t).length from (encodeTime_length t).symm]
    exact List.drop_left _ _
  · intro t' rand' pos' h1 h2
    rw [hval, hval]
    have h32 : t' < 32 ^ 10 := lt_of_lt_of_le h2 (by norm_num)
    have hlex := encodeTimeGo_lex 10 t t' h1 h32
    have hlen : (encodeTimeGo 10 t []).length = (encodeTimeGo 10 t' []).length := by
      simp [encodeTimeGo_length]
    exact lex_append_of_lex hlex hlen _ _

/-- Witness for the amended C5: timestamps 0 < 1 < 2^48 give
lexicographically increasing ULIDs on the all-zero stream. -/
theorem C5_ulid_spec_witness :
    ((0 : Nat) < 1 ∧ (1 : Nat) < 2 ^ 48)
    ∧ List.Lex (fun a b : Char => a < b)
        (generateUlid 0 zeroSrc 0).1.value.toList
        (generateUlid 1 zeroSrc 0).1.value.toList := by
  refine ⟨⟨by norm_num, by norm_num⟩, ?_⟩
  exact (C5_ulid_spec 0 zeroSrc 0).2.2.2.2 1 zeroSrc 0 (by norm_num) (by norm_num)

/-- C10: when a batch contains two entries with the same type, the
returned mapping holds for that type exactly the results generated for
the LAST such entry (the earlier entry results were overwritten when
the per-type accumulator was reset), while metadata total_items still
reports the sum of all entry counts, so total_items can exceed the
number of results returned. -/
theorem C10_batch_duplicate (reqs : List BatchRequest) (nowMs : Nat) (rand : ByteSrc)
    (out : BatchResult) (pend : Nat) (ty : String) (i j : Nat) (ri rj : BatchRequest)
    (_hij : i < j) (_hi : reqs[i]? = some ri) (hj : reqs[j]? = some rj)
    (_htyi : ri.type = ty) (htyj : rj.type = ty)
    (hlast : ∀ k rk, reqs[k]? = some rk → j < k → rk.type ≠ ty)
    (hok : generateBatch reqs nowMs rand 0 = .ok (out, pend)) :
    (∃ p p' items, genN ty rj.options nowMs rand rj.count p = .ok (items, p')
        ∧ lookupKey out.results ty = some items ∧ items.length = rj.count)
    ∧ out.metadata.total_items = some (sumCounts reqs) := by
  obtain ⟨htotal, hrun⟩ := generateBatch_ok reqs nowMs rand 0 out pend hok
  obtain ⟨p, p', items, hgen, hlook⟩ :=
    runBatch_last nowMs rand ty reqs j rj 0 [] out.results pend hrun hj htyj hlast
  exact ⟨⟨p, p', items, hgen, hlook,
    genN_length ty rj.options nowMs rand rj.count p items p' hgen⟩, htotal⟩

set_option maxHeartbeats 2000000 in
/-- Witness for C10: two pin entries with counts 2 and 3 leave only 3
results under the pin key while total_items reports 5. -/
theorem C10_batch_duplicate_witness :
    generateBatch batchDupPin 0 zeroSrc 0 = .ok (batchDupPinOut, 30)
    ∧ (lookupKey batchDupPinOut.results "pin").map List.length = some 3
    ∧ batchDupPinOut.metadata.total_items = some (sumCounts batchDupPin)
    ∧ sumCounts batchDupPin = 5 := by
  have hok : generateBatch batchDupPin 0 zeroSrc 0 = .ok (batchDupPinOut, 30) := by
    rfl
  have hc := C10_batch_duplicate batchDupPin 0 zeroSrc batchDupPinOut 30 "pin" 0 1
    { type := "pin", count := 2 } { type := "pin", count := 3 }
    (by norm_num) (by decide) (by decide) rfl rfl
    (fun k rk hk hgt => by
      rw [List.getElem?_eq_none (show batchDupPin.length ≤ k by
        simp [batchDupPin]; omega)] at hk
      cases hk) hok
  obtain ⟨⟨p, p', items, hgen, hlook, hlen⟩, htot⟩ := hc
  refine ⟨hok, ?_, htot, by decide⟩
  rw [hlook]
  simp [hlen]
